import Mathlib

/-!
Shallow embedding of the webscraping utility (src/main.py) and proofs about
its extraction and persistence pipeline.

The embedding models:
  * the parsed document (`Soup`) as the queries the code performs on it
    (all anchors with an href attribute, all table elements, the prettified
    serialization);
  * external effects (HTTP fetch, per-link download, per-path write success)
    as an oracle `World`;
  * the filesystem as an explicit state `FS` (existing directories plus an
    association list of file contents, later writes shadowing earlier ones).

Each function of the source is translated as a Lean function threading the
`FS` state; loops become structural recursion with the same accumulator
discipline as the Python loops.
-/

namespace WebScrape

/-! ## Decimal rendering of natural numbers

Models the decimal formatting performed by the Python f-string
`f"table_{idx + 1}.csv"`. -/

/-- Decimal digit to its character, as produced by Python decimal formatting. -/
def digitChar (d : Nat) : Char :=
  match d with
  | 0 => '0' | 1 => '1' | 2 => '2' | 3 => '3' | 4 => '4'
  | 5 => '5' | 6 => '6' | 7 => '7' | 8 => '8' | 9 => '9'
  | _ => '?'

theorem digitChar_inj {d e : Nat} (hd : d < 10) (he : e < 10)
    (h : digitChar d = digitChar e) : d = e := by
  interval_cases d <;> interval_cases e <;> revert h <;> decide

/-- Least-significant-first decimal digits of n, with explicit fuel; any
fuel at least n gives the digits of n. Structural recursion so that
concrete instances reduce inside the kernel. -/
def toDigitsRevFuel : Nat → Nat → List Nat
  | 0, _ => []
  | _ + 1, 0 => []
  | fuel + 1, n + 1 => ((n + 1) % 10) :: toDigitsRevFuel fuel ((n + 1) / 10)

/-- Least-significant-first decimal digits of n. -/
def toDigitsRev (n : Nat) : List Nat := toDigitsRevFuel n n

/-- Value of a least-significant-first decimal digit list. -/
def ofDigitsRev : List Nat → Nat
  | [] => 0
  | d :: ds => d + 10 * ofDigitsRev ds

theorem toDigitsRevFuel_bound : ∀ fuel n d, d ∈ toDigitsRevFuel fuel n → d < 10 := by
  intro fuel
  induction fuel with
  | zero => intro n d h; simp [toDigitsRevFuel] at h
  | succ f ih =>
    intro n d h
    cases n with
    | zero => simp [toDigitsRevFuel] at h
    | succ m =>
      simp only [toDigitsRevFuel, List.mem_cons] at h
      rcases h with h | h
      · subst h; exact Nat.mod_lt _ (by norm_num)
      · exact ih _ d h

theorem toDigitsRevFuel_roundtrip :
    ∀ fuel n, n ≤ fuel → ofDigitsRev (toDigitsRevFuel fuel n) = n := by
  intro fuel
  induction fuel with
  | zero =>
    intro n h
    have hn : n = 0 := by omega
    subst hn; rfl
  | succ f ih =>
    intro n h
    cases n with
    | zero => rfl
    | succ m =>
      simp only [toDigitsRevFuel, ofDigitsRev]
      have hdiv : (m + 1) / 10 < m + 1 := Nat.div_lt_self (Nat.succ_pos m) (by norm_num)
      rw [ih ((m + 1) / 10) (by omega)]
      exact Nat.mod_add_div (m + 1) 10

theorem toDigitsRev_roundtrip (n : Nat) : ofDigitsRev (toDigitsRev n) = n :=
  toDigitsRevFuel_roundtrip n n le_rfl

theorem toDigitsRev_bound (n : Nat) : ∀ d ∈ toDigitsRev n, d < 10 :=
  fun d hd => toDigitsRevFuel_bound n n d hd

/-- Decimal rendering of a natural number (most significant digit first),
as produced by Python str/format conversion. -/
def natToDecimal (n : Nat) : String :=
  if n = 0 then "0" else String.mk ((toDigitsRev n).reverse.map digitChar)

theorem map_digitChar_inj : ∀ (l₁ l₂ : List Nat), (∀ d ∈ l₁, d < 10) →
    (∀ d ∈ l₂, d < 10) → l₁.map digitChar = l₂.map digitChar → l₁ = l₂ := by
  intro l₁
  induction l₁ with
  | nil => intro l₂ _ _ h; cases l₂ <;> simp_all
  | cons d ds ih =>
    intro l₂ h1 h2 h
    cases l₂ with
    | nil => simp_all
    | cons e es =>
      simp only [List.map_cons, List.cons.injEq] at h
      have hde : d = e := digitChar_inj (h1 d (by simp)) (h2 e (by simp)) h.1
      have hrest : ds = es :=
        ih es (fun x hx => h1 x (by simp [hx])) (fun x hx => h2 x (by simp [hx])) h.2
      simp [hde, hrest]

theorem natToDecimal_eq_zero_str {n : Nat} (h : natToDecimal n = "0") : n = 0 := by
  by_contra hn
  unfold natToDecimal at h
  rw [if_neg hn] at h
  have hdata : List.map digitChar (toDigitsRev n).reverse = ['0'] :=
    congrArg String.data h
  cases hrev : (toDigitsRev n).reverse with
  | nil => rw [hrev] at hdata; simp at hdata
  | cons d ds =>
    rw [hrev] at hdata
    simp only [List.map_cons] at hdata
    have h1 : digitChar d = '0' := (List.cons.inj hdata).1
    have h2 : List.map digitChar ds = [] := (List.cons.inj hdata).2
    have hds : ds = [] := by
      cases ds with
      | nil => rfl
      | cons x xs => simp at h2
    have hd10 : d < 10 := toDigitsRev_bound n d (List.mem_reverse.mp (by rw [hrev]; simp))
    have hd0 : d = 0 := digitChar_inj hd10 (by norm_num) h1
    have hdig : toDigitsRev n = [0] := by
      have := congrArg List.reverse hrev
      simpa [hds, hd0] using this
    have h3 := toDigitsRev_roundtrip n
    rw [hdig] at h3
    simp [ofDigitsRev] at h3
    exact hn h3.symm

theorem natToDecimal_inj {m n : Nat} (h : natToDecimal m = natToDecimal n) : m = n := by
  have digbound : ∀ k : Nat, ∀ d ∈ (toDigitsRev k).reverse, d < 10 := by
    intro k d hd
    exact toDigitsRev_bound k d (List.mem_reverse.mp hd)
  by_cases hm : m = 0 <;> by_cases hn : n = 0
  · omega
  · exfalso
    have hz : natToDecimal n = "0" := by
      rw [← h, hm]
      rfl
    exact hn (natToDecimal_eq_zero_str hz)
  · exfalso
    have hz : natToDecimal m = "0" := by
      rw [h, hn]
      rfl
    exact hm (natToDecimal_eq_zero_str hz)
  · unfold natToDecimal at h
    rw [if_neg hm, if_neg hn] at h
    have hdata : ((toDigitsRev m).reverse).map digitChar
        = ((toDigitsRev n).reverse).map digitChar := by
      have := congrArg String.data h
      simpa [String.data] using this
    have hrev := map_digitChar_inj _ _ (digbound m) (digbound n) hdata
    have hdig : toDigitsRev m = toDigitsRev n := by
      have := congrArg List.reverse hrev
      simpa using this
    have h2 := congrArg ofDigitsRev hdig
    rwa [toDigitsRev_roundtrip, toDigitsRev_roundtrip] at h2

/-! ## String primitives

Structural (kernel-reducible) models of the Python string operations the
source uses: str.lower, str.endswith, str.startswith, str.split and
separator joins. -/

/-- Whether `pat` is an initial run of `s`. -/
def prefixChars : List Char → List Char → Bool
  | [], _ => true
  | _ :: _, [] => false
  | a :: as, b :: bs => a = b && prefixChars as bs

/-- Whether `pat` is a final run of `s`. -/
def suffixChars (pat s : List Char) : Bool := prefixChars pat.reverse s.reverse

/-- Whether `pat` occurs inside `s`. -/
def hasSub (pat : List Char) : List Char → Bool
  | [] => prefixChars pat []
  | c :: cs => prefixChars pat (c :: cs) || hasSub pat cs

/-- Split on a single-character separator, keeping empty parts, as Python
str.split with an explicit separator does. -/
def splitOnChar (sep : Char) : List Char → List (List Char)
  | [] => [[]]
  | c :: cs =>
    if c = sep then [] :: splitOnChar sep cs
    else
      match splitOnChar sep cs with
      | [] => [[c]]
      | p :: ps => (c :: p) :: ps

/-- Split a URL at the first "://" into the scheme and the remainder. -/
def splitScheme : List Char → Option (List Char × List Char)
  | [] => none
  | c :: cs =>
    if prefixChars [':', '/', '/'] (c :: cs) then some ([], cs.drop 2)
    else
      match splitScheme cs with
      | none => none
      | some (pre, post) => some (c :: pre, post)

/-- Join strings with a separator (Python sep.join). -/
def joinWith (sep : String) : List String → String
  | [] => ""
  | [s] => s
  | s :: rest => s ++ sep ++ joinWith sep rest

/-- ASCII lowercasing of one character (model of Python str.lower for the
characters relevant here). -/
def lowerChar (c : Char) : Char :=
  match c with
  | 'A' => 'a' | 'B' => 'b' | 'C' => 'c' | 'D' => 'd' | 'E' => 'e' | 'F' => 'f'
  | 'G' => 'g' | 'H' => 'h' | 'I' => 'i' | 'J' => 'j' | 'K' => 'k' | 'L' => 'l'
  | 'M' => 'm' | 'N' => 'n' | 'O' => 'o' | 'P' => 'p' | 'Q' => 'q' | 'R' => 'r'
  | 'S' => 's' | 'T' => 't' | 'U' => 'u' | 'V' => 'v' | 'W' => 'w' | 'X' => 'x'
  | 'Y' => 'y' | 'Z' => 'z'
  | c => c

/-- Model of str.lower. -/
def strToLower (s : String) : String := String.mk (s.data.map lowerChar)

/-- Model of str.endswith. -/
def strEndsWith (s suf : String) : Bool := suffixChars suf.data s.data

/-- Model of str.startswith. -/
def strStartsWith (s pre : String) : Bool := prefixChars pre.data s.data

/-! ## Filesystem state

Directories that exist, plus an association list of file contents; a write
prepends, so a later write to the same path shadows the earlier content. -/

structure FS where
  dirs : List String
  files : List (String × String)

/-- Look a path up in a file list; the first (most recent) entry wins. -/
def findFile : List (String × String) → String → Option String
  | [], _ => none
  | (p, c) :: rest, q => if q = p then some c else findFile rest q

def FS.fileContent (fs : FS) (p : String) : Option String := findFile fs.files p

/-- Writing a file: content at path `p` becomes `c`; directories unchanged. -/
def FS.write (fs : FS) (p c : String) : FS := { fs with files := (p, c) :: fs.files }

/-- Model of Path.mkdir(parents=True, exist_ok=True): ensures the directory
exists; files unchanged. -/
def FS.mkdir (fs : FS) (d : String) : FS :=
  { fs with dirs := if d ∈ fs.dirs then fs.dirs else d :: fs.dirs }

theorem fileContent_write_self (fs : FS) (p c : String) :
    (fs.write p c).fileContent p = some c := by
  simp [FS.write, FS.fileContent, findFile]

theorem fileContent_write_ne (fs : FS) {p q : String} (c : String) (h : q ≠ p) :
    (fs.write p c).fileContent q = fs.fileContent q := by
  simp [FS.write, FS.fileContent, findFile, h]

theorem dirs_write (fs : FS) (p c : String) : (fs.write p c).dirs = fs.dirs := rfl

theorem files_mkdir (fs : FS) (d : String) : (fs.mkdir d).files = fs.files := rfl

theorem fileContent_mkdir (fs : FS) (d p : String) :
    (fs.mkdir d).fileContent p = fs.fileContent p := rfl

theorem mem_mkdir_self (fs : FS) (d : String) : d ∈ (fs.mkdir d).dirs := by
  simp only [FS.mkdir]
  split <;> simp_all

theorem isSome_write (fs : FS) (p c q : String) (h : ((fs.fileContent q).isSome) = true) :
    (((fs.write p c).fileContent q).isSome) = true := by
  by_cases hq : q = p
  · subst hq; simp [fileContent_write_self]
  · rw [fileContent_write_ne fs c hq]; exact h

/-! ## Document model

The parsed document is modelled by the exact queries the code performs on
it: the href attribute values of all anchors that carry an href attribute
(soup.find_all("a", href=True) followed by a_tag.get("href")), the parse
outcomes of all table elements, and the prettified serialization. -/

/-- Value of an href attribute as returned by a_tag.get("href"): either a
string or some non-string value (rejected by the isinstance check). -/
inductive AttrVal where
  | str (s : String)
  | nonString
deriving DecidableEq

/-- One pandas DataFrame: optional header row plus data rows. -/
structure DataFrame where
  header : Option (List String)
  rows : List (List String)
deriving DecidableEq

/-- Model of pandas DataFrame.empty: no data elements. -/
def DataFrame.empty (df : DataFrame) : Bool := df.rows.isEmpty

/-- One CSV line, cells joined by commas (model of the pandas CSV writer
line format). -/
def csvLine (cells : List String) : String := joinWith "," cells

/-- Model of DataFrame.to_csv(index=...): when `index` is true a leading
row-index column (blank header cell, then the 0-based row number) is
prepended; when false no such column appears. -/
def DataFrame.toCsv (df : DataFrame) (index : Bool) : String :=
  let headerLines := match df.header with
    | none => []
    | some h => [csvLine (if index then "" :: h else h)]
  let rowLines :=
    if index then df.rows.enum.map (fun p => csvLine (natToDecimal p.1 :: p.2))
    else df.rows.map csvLine
  joinWith "\n" (headerLines ++ rowLines) ++ "\n"

/-- One `<table>` element, modelled by the outcome of
pd.read_html(StringIO(str(table))) on it: a ValueError, or the list of
candidate DataFrames pandas offers. -/
structure TableElem where
  parsed : Except String (List DataFrame)

/-- The parsed page (BeautifulSoup object), as queried by the code. -/
structure Soup where
  anchors : List AttrVal
  tables : List TableElem
  prettified : String

/-! ## External-effect oracle

All delegated effects of one run: the initial HTTP GET (`fetchResp`: either
the raw page text or the transport/HTTP-status failure, covering
requests.get + raise_for_status), the HTML parser (`parse`, covering
BeautifulSoup construction), per-link streaming GET outcomes (`download`),
and whether an attempted file write succeeds (`writeOk`, covering I/O errors
such as a missing directory is handled separately, disk full, permission). -/

structure World where
  fetchResp : Except String String
  parse : String → Soup
  download : String → Except String String
  writeOk : String → Bool

/-! ## URL helpers -/

/-- Model of urllib.parse.urljoin for the URL shapes this program handles:
an empty href keeps the base, an href containing "://" is already absolute,
a protocol-relative href inherits the scheme, a root-relative href inherits
scheme and host, and any other href replaces the last path segment of the
base. -/
def urljoin (base href : String) : String :=
  if href = "" then base
  else if hasSub [':', '/', '/'] href.data then href
  else if strStartsWith href "//" then
    match splitScheme base.data with
    | some (scheme, _) => String.mk scheme ++ ":" ++ href
    | none => href
  else
    match splitScheme base.data with
    | some (scheme, hostPath) =>
      let segs := splitOnChar '/' hostPath
      let host := String.mk (segs.headD [])
      if strStartsWith href "/" then String.mk scheme ++ "://" ++ host ++ href
      else
        let dirSegs := ((segs.drop 1).dropLast).map String.mk
        String.mk scheme ++ "://" ++ host ++ "/" ++ joinWith "/" (dirSegs ++ [""]) ++ href
    | none => href

/-- Model of the path component of an absolute URL
(urllib.parse.urlparse(url).path): the part after scheme and host and
before the first query or fragment delimiter. -/
def urlPath (url : String) : String :=
  let stripped := match splitScheme url.data with
    | some (_, hostPath) => hostPath.dropWhile (fun c => !(c == '/'))
    | none => url.data
  String.mk (stripped.takeWhile (fun c => !(c == '?') && !(c == '#')))

/-- Final slash-delimited segment of a URL string, as computed by
url.split("/")[-1] in the source. -/
def lastSegment (url : String) : String :=
  String.mk ((splitOnChar '/' url.data).getLastD [])

/-! ## Embedded source functions (src/main.py) -/

/-- The custom exception: its message and the wrapped underlying cause
(raise WebScrapingError(...) from exc). -/
structure WebScrapingError where
  msg : String
  cause : String
deriving DecidableEq

/-- Embedding of scrape_website: one GET plus raise_for_status, modelled by
the fetch oracle; on failure the exception is wrapped in a WebScrapingError
carrying the cause; on success the parsed document is returned. -/
def scrape_website (url : String) (w : World) : Except WebScrapingError Soup :=
  match w.fetchResp with
  | .error exc => .error ⟨"Failed to fetch " ++ url, exc⟩
  | .ok text => .ok (w.parse text)

/-- Loop of extract_tables_from_soup: for each table, try pd.read_html; on
ValueError skip; if the candidate list is non-empty and its first DataFrame
is non-empty, append that first DataFrame to the accumulator. -/
def extract_tables_go : List TableElem → List DataFrame → List DataFrame
  | [], acc => acc
  | t :: ts, acc =>
    match t.parsed with
    | .error _ => extract_tables_go ts acc
    | .ok dfs =>
      match dfs with
      | [] => extract_tables_go ts acc
      | df :: _ =>
        if df.empty then extract_tables_go ts acc
        else extract_tables_go ts (acc ++ [df])

/-- Embedding of extract_tables_from_soup. -/
def extract_tables_from_soup (soup : Soup) : List DataFrame :=
  extract_tables_go soup.tables []

/-- Loop of extract_download_links: for each anchor with an href attribute,
skip non-string hrefs; if the lowercased href ends with one of the
extensions, append urljoin(base_url, href) to the accumulator. -/
def extract_links_go (exts : List String) (base : String) :
    List AttrVal → List String → List String
  | [], acc => acc
  | a :: rest, acc =>
    match a with
    | .nonString => extract_links_go exts base rest acc
    | .str href =>
      if exts.any (fun ext => strEndsWith (strToLower href) ext) then
        extract_links_go exts base rest (acc ++ [urljoin base href])
      else extract_links_go exts base rest acc

/-- Embedding of extract_download_links; a missing extensions argument
defaults to [".pdf"]. -/
def extract_download_links (soup : Soup) (base_url : String)
    (extensions : Option (List String)) : List String :=
  let exts := extensions.getD [".pdf"]
  extract_links_go exts base_url soup.anchors []

/-- Loop of download_documents: derive the filename as the final
slash-delimited segment of the URL, issue the GET, and on success stream
the body to the file; any failure (transport or unexpected, including a
failing open or write) is caught and logged, and the loop continues. Also
returns the list of URLs for which a GET was attempted. -/
def download_docs_go (w : World) (dir : String) :
    List String → FS → FS × List String
  | [], fs => (fs, [])
  | url :: rest, fs =>
    let filename := lastSegment url
    let path := dir ++ "/" ++ filename
    let fs1 := match w.download url with
      | .error _ => fs
      | .ok body =>
        if dir ∈ fs.dirs ∧ w.writeOk path = true then fs.write path body else fs
    let r := download_docs_go w dir rest fs1
    (r.1, url :: r.2)

/-- Embedding of download_documents: ensures the output directory exists,
then processes the links sequentially. -/
def download_documents (links : List String) (output_dir : String)
    (w : World) (fs : FS) : FS × List String :=
  download_docs_go w output_dir links (fs.mkdir output_dir)

/-- Path of the CSV file for 1-based table index i. -/
def tablePath (dir : String) (i : Nat) : String :=
  dir ++ "/table_" ++ natToDecimal i ++ ".csv"

theorem tablePath_inj {dir : String} {i j : Nat} (h : tablePath dir i = tablePath dir j) :
    i = j := by
  unfold tablePath at h
  have h2 := congrArg String.data h
  simp only [String.data_append] at h2
  have h3 := List.append_cancel_left (List.append_cancel_right h2)
  exact natToDecimal_inj (String.ext h3)

/-- Loop of save_tables_as_csv: for 0-based position idx, write
table_{idx+1}.csv with df.to_csv(index=False); a failing write (missing
directory, I/O error) is caught and logged and the loop continues. -/
def save_tables_go (w : World) (dir : String) :
    List DataFrame → Nat → FS → FS
  | [], _, fs => fs
  | df :: rest, idx, fs =>
    let path := tablePath dir (idx + 1)
    let fs1 :=
      if dir ∈ fs.dirs ∧ w.writeOk path = true then fs.write path (df.toCsv false)
      else fs
    save_tables_go w dir rest (idx + 1) fs1

/-- Embedding of save_tables_as_csv; note it performs no mkdir. -/
def save_tables_as_csv (tables : List DataFrame) (output_dir : String)
    (w : World) (fs : FS) : FS :=
  save_tables_go w output_dir tables 0 fs

/-- Embedding of save_html_content: writes soup.prettify() to
scraped_content.html inside the output directory; a failing open or write
is caught and logged; no mkdir is performed. -/
def save_html_content (soup : Soup) (output_dir : String) (w : World) (fs : FS) : FS :=
  let html_path := output_dir ++ "/scraped_content.html"
  if output_dir ∈ fs.dirs ∧ w.writeOk html_path = true then
    fs.write html_path soup.prettified
  else fs

/-- Parsed command-line flags (argparse namespace). -/
structure Args where
  output : String
  find_download_links : Bool
  download_tables : Bool
  download_documents : Bool

/-- Stages of main that produce output, in the order they run. -/
inductive Stage where
  | saveHtml
  | saveTables
  | findLinks
  | downloadDocs
deriving DecidableEq

/-- Embedding of main: create the output directory, fetch (aborting on a
WebScrapingError), always save the HTML, then run the optional stages in
source order. Returns the final filesystem and the trace of output stages
that ran. -/
def mainRun (url : String) (args : Args) (w : World) (fs0 : FS) : FS × List Stage :=
  let fs := fs0.mkdir args.output
  match scrape_website url w with
  | .error _ => (fs, [])
  | .ok soup =>
    let fs := save_html_content soup args.output w fs
    let step1 :=
      if args.download_tables then
        (save_tables_as_csv (extract_tables_from_soup soup) args.output w fs,
         [Stage.saveTables])
      else (fs, [])
    let download_links :=
      if args.find_download_links || args.download_documents then
        extract_download_links soup url none
      else []
    let t2 := if args.find_download_links then [Stage.findLinks] else []
    let step3 :=
      if args.download_documents && !download_links.isEmpty then
        ((download_documents download_links args.output w step1.1).1,
         [Stage.downloadDocs])
      else (step1.1, [])
    (step3.1, Stage.saveHtml :: (step1.2 ++ t2 ++ step3.2))

/-! ## Characterizations of the extraction loops -/

/-- What one table element contributes to the extraction result: the first
candidate DataFrame when parsing succeeded, the candidate list is non-empty
and that DataFrame is non-empty; nothing otherwise. -/
def convertTable (t : TableElem) : Option DataFrame :=
  match t.parsed with
  | .error _ => none
  | .ok [] => none
  | .ok (df :: _) => if df.empty then none else some df

theorem extract_tables_go_eq : ∀ (ts : List TableElem) (acc : List DataFrame),
    extract_tables_go ts acc = acc ++ ts.filterMap convertTable := by
  intro ts
  induction ts with
  | nil => intro acc; simp [extract_tables_go]
  | cons t ts ih =>
    intro acc
    simp only [extract_tables_go]
    cases hp : t.parsed with
    | error e => simp [List.filterMap_cons, convertTable, hp, ih]
    | ok dfs =>
      cases dfs with
      | nil => simp [List.filterMap_cons, convertTable, hp, ih]
      | cons df rest =>
        by_cases he : df.empty = true
        · simp [List.filterMap_cons, convertTable, hp, he, ih]
        · simp [List.filterMap_cons, convertTable, hp, he, ih]

/-- What one anchor contributes to the link-extraction result. -/
def linkOf (exts : List String) (base : String) (a : AttrVal) : Option String :=
  match a with
  | .nonString => none
  | .str href =>
    if exts.any (fun ext => strEndsWith (strToLower href) ext) then some (urljoin base href)
    else none

theorem extract_links_go_eq (exts : List String) (base : String) :
    ∀ (l : List AttrVal) (acc : List String),
    extract_links_go exts base l acc = acc ++ l.filterMap (linkOf exts base) := by
  intro l
  induction l with
  | nil => intro acc; simp [extract_links_go]
  | cons a rest ih =>
    intro acc
    simp only [extract_links_go]
    cases a with
    | nonString => simp [List.filterMap_cons, linkOf, ih]
    | str href =>
      by_cases hc : (exts.any (fun ext => strEndsWith (strToLower href) ext)) = true
      · simp [List.filterMap_cons, linkOf, hc, ih]
      · simp [List.filterMap_cons, linkOf, hc, ih]

/-! ## Behaviour of the persistence loops -/

theorem save_tables_go_dirs (w : World) (dir : String) :
    ∀ (ts : List DataFrame) (idx : Nat) (fs : FS),
    (save_tables_go w dir ts idx fs).dirs = fs.dirs := by
  intro ts
  induction ts with
  | nil => intro idx fs; rfl
  | cons df rest ih =>
    intro idx fs
    simp only [save_tables_go]
    split
    · rw [ih]; rfl
    · rw [ih]

theorem save_tables_go_other (w : World) (dir : String) :
    ∀ (ts : List DataFrame) (idx : Nat) (fs : FS) (p : String),
    (∀ j, j < ts.length → p ≠ tablePath dir (idx + j + 1)) →
    (save_tables_go w dir ts idx fs).fileContent p = fs.fileContent p := by
  intro ts
  induction ts with
  | nil => intro idx fs p _; rfl
  | cons df rest ih =>
    intro idx fs p hp
    simp only [save_tables_go]
    have hrec : ∀ j, j < rest.length → p ≠ tablePath dir ((idx + 1) + j + 1) := by
      intro j hj
      have := hp (j + 1) (by simp; omega)
      simpa [Nat.add_assoc, Nat.add_comm, Nat.add_left_comm] using this
    split
    · rw [ih (idx + 1) _ p hrec]
      exact fileContent_write_ne fs _ (hp 0 (by simp))
    · exact ih (idx + 1) fs p hrec

theorem save_tables_go_own (w : World) (dir : String) :
    ∀ (ts : List DataFrame) (idx : Nat) (fs : FS) (j : Nat) (hj : j < ts.length),
    dir ∈ fs.dirs → w.writeOk (tablePath dir (idx + j + 1)) = true →
    (save_tables_go w dir ts idx fs).fileContent (tablePath dir (idx + j + 1))
      = some ((ts.get ⟨j, hj⟩).toCsv false) := by
  intro ts
  induction ts with
  | nil => intro idx fs j hj; simp at hj
  | cons df rest ih =>
    intro idx fs j hj hdir hw
    cases j with
    | zero =>
      simp only [save_tables_go, List.get]
      have hcond : dir ∈ fs.dirs ∧ w.writeOk (tablePath dir (idx + 1)) = true := by
        constructor
        · exact hdir
        · simpa using hw
      rw [if_pos hcond]
      have hne : ∀ k, k < rest.length →
          tablePath dir (idx + 0 + 1) ≠ tablePath dir ((idx + 1) + k + 1) := by
        intro k hk heq
        have := tablePath_inj heq
        omega
      rw [save_tables_go_other w dir rest (idx + 1) _ _ hne]
      have : tablePath dir (idx + 0 + 1) = tablePath dir (idx + 1) := by
        norm_num
      rw [this]
      exact fileContent_write_self _ _ _
    | succ k =>
      simp only [save_tables_go, List.get]
      have harith : idx + (k + 1) + 1 = (idx + 1) + k + 1 := by omega
      rw [harith]
      have hw2 : w.writeOk (tablePath dir ((idx + 1) + k + 1)) = true := by
        rwa [← harith]
      split
      · exact ih (idx + 1) _ k (by simpa using hj) hdir hw2
      · exact ih (idx + 1) fs k (by simpa using hj) hdir hw2

theorem save_tables_go_files_nodir (w : World) (dir : String) :
    ∀ (ts : List DataFrame) (idx : Nat) (fs : FS), dir ∉ fs.dirs →
    (save_tables_go w dir ts idx fs).files = fs.files := by
  intro ts
  induction ts with
  | nil => intro idx fs _; rfl
  | cons df rest ih =>
    intro idx fs hdir
    simp only [save_tables_go]
    rw [if_neg (by intro hc; exact hdir hc.1)]
    exact ih (idx + 1) fs hdir

theorem save_tables_go_isSome (w : World) (dir q : String) :
    ∀ (ts : List DataFrame) (idx : Nat) (fs : FS),
    ((fs.fileContent q).isSome = true) →
    (((save_tables_go w dir ts idx fs).fileContent q).isSome = true) := by
  intro ts
  induction ts with
  | nil => intro idx fs h; exact h
  | cons df rest ih =>
    intro idx fs h
    simp only [save_tables_go]
    split
    · exact ih (idx + 1) _ (isSome_write fs _ _ q h)
    · exact ih (idx + 1) fs h

theorem download_docs_go_attempted (w : World) (dir : String) :
    ∀ (links : List String) (fs : FS), (download_docs_go w dir links fs).2 = links := by
  intro links
  induction links with
  | nil => intro fs; rfl
  | cons url rest ih =>
    intro fs
    simp only [download_docs_go]
    rw [ih]

theorem download_docs_go_isSome (w : World) (dir q : String) :
    ∀ (links : List String) (fs : FS),
    ((fs.fileContent q).isSome = true) →
    ((((download_docs_go w dir links fs).1).fileContent q).isSome = true) := by
  intro links
  induction links with
  | nil => intro fs h; exact h
  | cons url rest ih =>
    intro fs h
    simp only [download_docs_go]
    apply ih
    cases hd : w.download url with
    | error e => exact h
    | ok body =>
      dsimp only
      by_cases hc : dir ∈ fs.dirs ∧ w.writeOk (dir ++ "/" ++ lastSegment url) = true
      · rw [if_pos hc]; exact isSome_write fs _ _ q h
      · rw [if_neg hc]; exact h

theorem save_tables_isSome (tables : List DataFrame) (dir : String) (w : World)
    (fs : FS) (q : String) (h : (fs.fileContent q).isSome = true) :
    ((save_tables_as_csv tables dir w fs).fileContent q).isSome = true :=
  save_tables_go_isSome w dir q tables 0 fs h

theorem download_documents_isSome (links : List String) (dir : String) (w : World)
    (fs : FS) (q : String) (h : (fs.fileContent q).isSome = true) :
    (((download_documents links dir w fs).1).fileContent q).isSome = true := by
  unfold download_documents
  exact download_docs_go_isSome w dir q links (fs.mkdir dir) h

/-! ## Concrete objects used by witnesses and counterexamples -/

/-- A small concrete document. -/
def soupW : Soup := ⟨[AttrVal.str "a.pdf"], [], "<html/>"⟩

/-- The document of the C1 counterexample: one anchor whose href carries a
query string after the ".pdf" path. -/
def soupC1 : Soup := ⟨[AttrVal.str "doc.pdf?download=1"], [], ""⟩

/-- A concrete table record. -/
def dfW : DataFrame := ⟨some ["Col1", "Col2"], [["A", "1"]]⟩

/-- A world whose initial fetch fails. -/
def wFail : World :=
  ⟨.error "boom", fun _ => soupW, fun _ => .error "down", fun _ => true⟩

/-- A world where everything succeeds. -/
def wOk : World :=
  ⟨.ok "raw", fun _ => soupW, fun _ => .ok "body", fun _ => true⟩

/-- A world where two colliding links both download, with distinct bodies. -/
def wDl : World :=
  ⟨.ok "raw", fun _ => soupW,
   fun u => if u = "http://a.org/x.pdf" then Except.ok "one" else Except.ok "two",
   fun _ => true⟩

/-- A world where the first link fails to download and the second succeeds. -/
def wTwo : World :=
  ⟨.ok "raw", fun _ => soupW,
   fun u => if u = "http://a.org/x.pdf" then Except.error "conn" else Except.ok "second",
   fun _ => true⟩

/-- All optional flags on, output directory "out". -/
def argsAll : Args := ⟨"out", true, true, true⟩

/-- An empty filesystem: no directories, no files. -/
def fs0 : FS := ⟨[], []⟩

/-- A filesystem where only the directory "out" exists. -/
def fsOut : FS := ⟨["out"], []⟩

/-! ## The claims -/

/-- Claim C1 as stated is false at a concrete input: with the default
extensions and base http://example.com/page.html, the anchor with href
"doc.pdf?download=1" resolves to an absolute URL whose path "/doc.pdf",
lowercased, ends with ".pdf", yet extract_download_links does not include
the link, because the code filters on the raw href text instead of the
resolved path. -/
theorem C1_path_filter_counterexample :
    ¬ ((strEndsWith (strToLower (urlPath (urljoin "http://example.com/page.html"
          "doc.pdf?download=1"))) ".pdf" = true) →
        urljoin "http://example.com/page.html" "doc.pdf?download=1" ∈
          extract_download_links soupC1 "http://example.com/page.html" none) := by
  decide

/-- Claim C1 amended: for every anchor with a string-valued href, the link
urljoin(base_url, href) is included in extract_download_links exactly when
the RAW href text, lowercased, ends with one of the configured extensions
taken verbatim (so matching is case-insensitive only in the href, not in
the extension), with the default list [".pdf"] when no list is given. -/
theorem C1_link_inclusion_amended (soup : Soup) (base : String)
    (exts : Option (List String)) (u : String) :
    u ∈ extract_download_links soup base exts ↔
      ∃ href, AttrVal.str href ∈ soup.anchors ∧
        (exts.getD [".pdf"]).any (fun ext => strEndsWith (strToLower href) ext) = true ∧
        u = urljoin base href := by
  unfold extract_download_links
  rw [extract_links_go_eq]
  rw [List.nil_append, List.mem_filterMap]
  constructor
  · rintro ⟨a, ha, hlink⟩
    cases a with
    | nonString => simp [linkOf] at hlink
    | str href =>
      simp only [linkOf] at hlink
      by_cases hc : (exts.getD [".pdf"]).any (fun ext => strEndsWith (strToLower href) ext) = true
      · rw [if_pos hc] at hlink
        exact ⟨href, ha, hc, (Option.some.inj hlink).symm⟩
      · rw [if_neg hc] at hlink
        cases hlink
  · rintro ⟨href, ha, hc, rfl⟩
    exact ⟨AttrVal.str href, ha, by simp [linkOf, hc]⟩

/-- Claim C2 (confirmed): when the initial fetch raises, scrape_website
fails with a WebScrapingError wrapping the underlying cause, and the run
aborts without writing any HTML, CSV or document file: the file map is
left exactly as it was. -/
theorem C2_fetch_failure_aborts (url : String) (args : Args) (w : World) (fs : FS)
    (e : String) (h : w.fetchResp = .error e) :
    scrape_website url w = .error ⟨"Failed to fetch " ++ url, e⟩ ∧
    ((mainRun url args w fs).1).files = fs.files := by
  have hs : scrape_website url w = .error ⟨"Failed to fetch " ++ url, e⟩ := by
    unfold scrape_website
    rw [h]
  refine ⟨hs, ?_⟩
  unfold mainRun
  rw [hs]
  rfl

/-- Witness for C2 at a concrete world whose fetch fails. -/
theorem C2_fetch_failure_aborts_witness :
    scrape_website "http://x" wFail = .error ⟨"Failed to fetch " ++ "http://x", "boom"⟩ ∧
    ((mainRun "http://x" argsAll wFail fs0).1).files = fs0.files :=
  C2_fetch_failure_aborts "http://x" argsAll wFail fs0 "boom" rfl

/-- Claim C3 (confirmed): table extraction returns exactly the tables that
convert to a non-empty DataFrame (taking the first parsed variant), in
document order, and at most as many records as there are table elements;
a failing or empty table is skipped without aborting the others. -/
theorem C3_table_extraction_subset (soup : Soup) :
    extract_tables_from_soup soup = soup.tables.filterMap convertTable ∧
    (extract_tables_from_soup soup).length ≤ soup.tables.length := by
  have heq : extract_tables_from_soup soup = soup.tables.filterMap convertTable := by
    unfold extract_tables_from_soup
    rw [extract_tables_go_eq, List.nil_append]
  exact ⟨heq, by rw [heq]; exact List.length_filterMap_le _ _⟩

/-- Claim C4 as stated is false at a concrete input: starting from a
filesystem with no directories, save_html_content neither creates the
directory "out" nor writes out/scraped_content.html, even though the write
oracle permits every write — the function performs no mkdir and the failed
open is only logged. -/
theorem C4_no_mkdir_counterexample :
    ¬ (("out" ∈ (save_html_content soupW "out" wOk fs0).dirs) ∧
       (save_html_content soupW "out" wOk fs0).fileContent "out/scraped_content.html"
         = some soupW.prettified) := by
  decide

/-- Claim C4 amended: save_html_content writes the prettified serialization
to scraped_content.html inside dir whenever dir already exists and the
write succeeds; it never creates dir, and when dir is absent no file is
written. -/
theorem C4_html_save_amended (soup : Soup) (dir : String) (w : World) (fs : FS) :
    ((save_html_content soup dir w fs).dirs = fs.dirs) ∧
    (dir ∈ fs.dirs → w.writeOk (dir ++ "/scraped_content.html") = true →
      (save_html_content soup dir w fs).fileContent (dir ++ "/scraped_content.html")
        = some soup.prettified) ∧
    (dir ∉ fs.dirs → (save_html_content soup dir w fs).files = fs.files) := by
  unfold save_html_content
  refine ⟨?_, ?_, ?_⟩
  · dsimp only
    split
    · rfl
    · rfl
  · intro hd hw
    dsimp only
    rw [if_pos ⟨hd, hw⟩]
    exact fileContent_write_self _ _ _
  · intro hd
    dsimp only
    rw [if_neg (fun hc => hd hc.1)]

/-- Witness for the amended C4 at a concrete input whose directory exists. -/
theorem C4_html_save_amended_witness :
    (save_html_content soupW "out" wOk fsOut).fileContent "out/scraped_content.html"
      = some soupW.prettified :=
  (C4_html_save_amended soupW "out" wOk fsOut).2.1 (by decide) rfl

/-- Claim C5 (confirmed): the output filename for each downloaded link is
derived naively from the final slash-delimited segment of the URL — a
successfully downloaded link lands at dir/lastSegment(url) — with no
sanitization and no collision handling: when two successfully downloaded
links share a final segment, both are written to the same path and the
later one overwrites the earlier. -/
theorem C5_filename_last_segment_overwrite :
    (∀ (dir : String) (w : World) (fs : FS) (url b : String),
      w.download url = .ok b → w.writeOk (dir ++ "/" ++ lastSegment url) = true →
      ((download_documents [url] dir w fs).1).fileContent (dir ++ "/" ++ lastSegment url)
        = some b) ∧
    (∀ (dir : String) (w : World) (fs : FS) (u1 u2 b1 b2 : String),
      lastSegment u1 = lastSegment u2 →
      w.download u1 = .ok b1 → w.download u2 = .ok b2 →
      w.writeOk (dir ++ "/" ++ lastSegment u2) = true →
      ((download_documents [u1, u2] dir w fs).1).fileContent (dir ++ "/" ++ lastSegment u1)
        = some b2) := by
  constructor
  · intro dir w fs url b h hw
    have hmem : dir ∈ (fs.mkdir dir).dirs := mem_mkdir_self fs dir
    unfold download_documents
    simp only [download_docs_go, h]
    rw [if_pos ⟨hmem, hw⟩]
    exact fileContent_write_self _ _ _
  · intro dir w fs u1 u2 b1 b2 hseg h1 h2 hw2
    have hmem : dir ∈ (fs.mkdir dir).dirs := mem_mkdir_self fs dir
    have hfs1 : (if dir ∈ (fs.mkdir dir).dirs ∧
          w.writeOk (dir ++ "/" ++ lastSegment u2) = true
        then (fs.mkdir dir).write (dir ++ "/" ++ lastSegment u2) b1
        else fs.mkdir dir)
        = (fs.mkdir dir).write (dir ++ "/" ++ lastSegment u2) b1 := if_pos ⟨hmem, hw2⟩
    unfold download_documents
    simp only [download_docs_go, h1, h2]
    rw [hseg, hfs1]
    rw [if_pos (⟨hmem, hw2⟩ :
        dir ∈ ((fs.mkdir dir).write (dir ++ "/" ++ lastSegment u2) b1).dirs ∧
        w.writeOk (dir ++ "/" ++ lastSegment u2) = true)]
    exact fileContent_write_self _ _ _

/-- Witness for C5: one link lands at its final segment; of two links
ending in x.pdf, the later body wins. -/
theorem C5_filename_last_segment_overwrite_witness :
    ((download_documents ["http://a.org/x.pdf"] "out" wDl fs0).1).fileContent
      ("out" ++ "/" ++ lastSegment "http://a.org/x.pdf") = some "one" ∧
    ((download_documents ["http://a.org/x.pdf", "http://b.org/x.pdf"] "out" wDl fs0).1).fileContent
      ("out" ++ "/" ++ lastSegment "http://a.org/x.pdf") = some "two" :=
  ⟨C5_filename_last_segment_overwrite.1 "out" wDl fs0 "http://a.org/x.pdf" "one" rfl rfl,
   C5_filename_last_segment_overwrite.2 "out" wDl fs0 "http://a.org/x.pdf" "http://b.org/x.pdf"
     "one" "two" (by decide) rfl rfl rfl⟩

/-- Claim C6 (confirmed): download_documents processes the links
sequentially and attempts every one of them no matter how earlier links
fared; in particular, in a two-link batch whose first download fails while
the second succeeds, the second file is still written. -/
theorem C6_failed_download_continues :
    (∀ (links : List String) (dir : String) (w : World) (fs : FS),
      (download_documents links dir w fs).2 = links) ∧
    (∀ (dir : String) (w : World) (fs : FS) (u1 u2 e b : String),
      w.download u1 = .error e → w.download u2 = .ok b →
      w.writeOk (dir ++ "/" ++ lastSegment u2) = true →
      ((download_documents [u1, u2] dir w fs).1).fileContent (dir ++ "/" ++ lastSegment u2)
        = some b) := by
  constructor
  · intro links dir w fs
    unfold download_documents
    exact download_docs_go_attempted w dir links _
  · intro dir w fs u1 u2 e b h1 h2 hw
    have hmem : dir ∈ (fs.mkdir dir).dirs := mem_mkdir_self fs dir
    unfold download_documents
    simp only [download_docs_go, h1, h2]
    rw [if_pos ⟨hmem, hw⟩]
    exact fileContent_write_self _ _ _

/-- Witness for C6: both links are attempted although the first fails with
a connection error, and the second link's file is written. -/
theorem C6_failed_download_continues_witness :
    (download_documents ["http://a.org/x.pdf", "http://b.org/y.pdf"] "out" wTwo fs0).2
      = ["http://a.org/x.pdf", "http://b.org/y.pdf"] ∧
    ((download_documents ["http://a.org/x.pdf", "http://b.org/y.pdf"] "out" wTwo fs0).1).fileContent
      ("out" ++ "/" ++ lastSegment "http://b.org/y.pdf") = some "second" :=
  ⟨C6_failed_download_continues.1 ["http://a.org/x.pdf", "http://b.org/y.pdf"] "out" wTwo fs0,
   C6_failed_download_continues.2 "out" wTwo fs0 "http://a.org/x.pdf" "http://b.org/y.pdf"
     "conn" "second" rfl rfl rfl⟩

/-- Claim C7 (confirmed): the table at 0-based position i is written to
table_{i+1}.csv rendered with to_csv(index=False), i.e. without a
row-index column, whenever the directory exists and its own write
succeeds; the write oracle is arbitrary elsewhere, so failures of other
tables never prevent this one from being written. -/
theorem C7_table_csv_independent (tables : List DataFrame) (dir : String)
    (w : World) (fs : FS) (i : Nat) (hi : i < tables.length)
    (hdir : dir ∈ fs.dirs) (hw : w.writeOk (tablePath dir (i + 1)) = true) :
    (save_tables_as_csv tables dir w fs).fileContent (tablePath dir (i + 1))
      = some ((tables.get ⟨i, hi⟩).toCsv false) := by
  have h := save_tables_go_own w dir tables 0 fs i hi hdir (by simpa using hw)
  simpa using h

/-- Witness for C7 at one concrete table. -/
theorem C7_table_csv_independent_witness :
    (save_tables_as_csv [dfW] "out" wOk fsOut).fileContent (tablePath "out" 1)
      = some (dfW.toCsv false) :=
  C7_table_csv_independent [dfW] "out" wOk fsOut 0 (by decide) (by decide) rfl

theorem count_saveHtml_tail (l1 l2 l3 : List Stage)
    (h1 : Stage.saveHtml ∉ l1) (h2 : Stage.saveHtml ∉ l2) (h3 : Stage.saveHtml ∉ l3) :
    (Stage.saveHtml :: (l1 ++ l2 ++ l3)).count Stage.saveHtml = 1 := by
  simp [List.count_cons_self, List.count_append, List.count_eq_zero.mpr h1,
    List.count_eq_zero.mpr h2, List.count_eq_zero.mpr h3]

/-- Claim C8 (confirmed): whenever the initial fetch succeeds and the HTML
write is permitted, mainRun runs the HTML-save stage exactly once — the
trace contains exactly one saveHtml event — and a file exists at
output/scraped_content.html afterwards, whatever combination of optional
flags is set. -/
theorem C8_html_saved_every_run (url : String) (args : Args) (w : World) (fs : FS)
    (raw : String) (hf : w.fetchResp = .ok raw)
    (hw : w.writeOk (args.output ++ "/scraped_content.html") = true) :
    ((mainRun url args w fs).2).count Stage.saveHtml = 1 ∧
    (((mainRun url args w fs).1).fileContent
      (args.output ++ "/scraped_content.html")).isSome = true := by
  obtain ⟨out, ffind, ftab, fdl⟩ := args
  simp only [Args.output] at hw
  have hscrape : scrape_website url w = .ok (w.parse raw) := by
    unfold scrape_website
    rw [hf]
  have hmem : out ∈ (fs.mkdir out).dirs := mem_mkdir_self fs out
  have hsave : (save_html_content (w.parse raw) out w (fs.mkdir out)).fileContent
      (out ++ "/scraped_content.html") = some (w.parse raw).prettified := by
    unfold save_html_content
    rw [if_pos ⟨hmem, hw⟩]
    exact fileContent_write_self _ _ _
  have hbase : ((save_html_content (w.parse raw) out w (fs.mkdir out)).fileContent
      (out ++ "/scraped_content.html")).isSome = true := by
    rw [hsave]
    rfl
  unfold mainRun
  rw [hscrape]
  cases ffind <;> cases ftab <;> cases fdl <;>
    refine ⟨?_, ?_⟩ <;>
    simp only [Args.output, Args.find_download_links, Args.download_tables,
      Args.download_documents, Bool.false_or, Bool.true_or, Bool.or_self,
      Bool.false_and, Bool.true_and, eq_self_iff_true, Bool.false_eq_true,
      if_true, if_false]
  all_goals try split
  all_goals
    first
    | exact hbase
    | exact save_tables_isSome _ _ _ _ _ hbase
    | exact download_documents_isSome _ _ _ _ _ hbase
    | exact download_documents_isSome _ _ _ _ _ (save_tables_isSome _ _ _ _ _ hbase)
    | (apply count_saveHtml_tail <;> simp)

/-- Witness for C8 with every optional flag enabled. -/
theorem C8_html_saved_every_run_witness :
    ((mainRun "http://x" argsAll wOk fs0).2).count Stage.saveHtml = 1 ∧
    (((mainRun "http://x" argsAll wOk fs0).1).fileContent
      ("out" ++ "/scraped_content.html")).isSome = true :=
  C8_html_saved_every_run "http://x" argsAll wOk fs0 "raw" rfl rfl

/-- Claim C9 (confirmed): an explicitly empty extension list yields no
links for any document and base URL, while omitting the argument behaves
exactly like passing the default [".pdf"]. -/
theorem C9_empty_extensions_no_links (soup : Soup) (base : String) :
    extract_download_links soup base (some []) = [] ∧
    extract_download_links soup base none = extract_download_links soup base (some [".pdf"]) := by
  constructor
  · unfold extract_download_links
    rw [extract_links_go_eq, List.nil_append]
    rw [List.filterMap_eq_nil_iff]
    intro a ha
    cases a <;> simp [linkOf]
  · rfl

/-- Claim C10 (confirmed): save_tables_as_csv never creates the output
directory, and — being a total state transformer in which each per-table
failure is only logged — it always returns normally; when the directory
does not exist no CSV file is written, leaving the file map untouched. -/
theorem C10_save_tables_no_mkdir (tables : List DataFrame) (dir : String)
    (w : World) (fs : FS) :
    ((save_tables_as_csv tables dir w fs).dirs = fs.dirs) ∧
    (dir ∉ fs.dirs → (save_tables_as_csv tables dir w fs).files = fs.files) := by
  constructor
  · exact save_tables_go_dirs w dir tables 0 fs
  · intro hd
    exact save_tables_go_files_nodir w dir tables 0 fs hd

/-- Witness for C10: saving one table into an absent directory writes
nothing. -/
theorem C10_save_tables_no_mkdir_witness :
    (save_tables_as_csv [dfW] "out" wOk fs0).files = fs0.files :=
  (C10_save_tables_no_mkdir [dfW] "out" wOk fs0).2 (by decide)

end WebScrape
